import Mathlib

/-!
Shallow embedding of the multi-threaded scraping orchestrator of `fb_app`
(`multi_thread_scraper.py` and `driver_pool.py`), together with theorems
checking the natural-language specification against it.

Modelling conventions:
* Python dictionaries produced by `extract_data` are modelled by the record
  `PageData`; its `error_message` field models `data.get('error_message')`
  (`none` covers both an absent key and a `None` value).
* Wall-clock quantities (`processing_time`, `elapsed_time`) are modelled as
  exact rationals where needed; the display rounding `round(x, 2)` of Python
  floats is presentation formatting and is not modelled.
* Nondeterminism of the thread pool is made explicit: the outcome of each
  guarded attempt of a task is an oracle `Nat → AttemptOutcome` indexed by the
  attempt number, the observations of `shutdown_event.is_set()` at each check
  point are Boolean oracles, and the completion order of futures seen by
  `as_completed` is an explicit list of task ids.
-/

namespace FbApp

/-- Models the dictionary returned by `extract_data` (facebook_scrapper.py):
only the entries the orchestrator reads are kept.  `error_message` models
`data.get('error_message')` (absent key and `None` value both map to `none`);
`original_url` models `data.get('original_url')`. -/
structure PageData where
  error_message : Option String := none
  original_url : Option String := none
deriving Repr, DecidableEq

/-- `ScrapeTask` dataclass (multi_thread_scraper.py lines 14-20). -/
structure ScrapeTask where
  url : String
  task_id : Nat
  retry_count : Nat := 0
  max_retries : Nat := 3
deriving Repr, DecidableEq

/-- `ScrapeResult` dataclass (multi_thread_scraper.py lines 22-30).  The
wall-clock `processing_time` field is not modelled. -/
structure ScrapeResult where
  task_id : Nat
  url : String
  data : PageData
  success : Bool
  error_message : Option String := none
deriving Repr, DecidableEq

/-- The message of the exception raised by `DriverPool.get_driver` on a queue
timeout (driver_pool.py line 95). -/
def poolExhaustedMsg : String := "No drivers available in pool"

/-- Outcome of one execution of the guarded block of `_scrape_single_url`
(multi_thread_scraper.py lines 196-224), excluding the shutdown check:
* `acquireFail`: `driver_pool.get_driver` raised (pool exhausted; the raised
  exception is `Exception("No drivers available in pool")`, line 95 of
  driver_pool.py), so no driver was acquired and `extract_data` did not run;
* `extractExn msg`: a driver was acquired and the `extract_data` call raised
  an exception whose `str` is `msg` (the call-site handler at line 226 treats
  any exception this way; in this repository `extract_data` itself catches
  all exceptions internally, see `SrcFaultsOnly` below);
* `ok data`: a driver was acquired and `extract_data` returned `data`. -/
inductive AttemptOutcome where
  | acquireFail : AttemptOutcome
  | extractExn : String → AttemptOutcome
  | ok : PageData → AttemptOutcome
deriving Repr, DecidableEq

/-- The string attached to a failing attempt: `str(e)` of the exception the
attempt raised (for `ok` it is unused and returns `""`). -/
def failMsg : AttemptOutcome → String
  | .acquireFail => poolExhaustedMsg
  | .extractExn m => m
  | .ok _ => ""

/-- An attempt outcome that raised an exception. -/
def AttemptOutcome.isFailure : AttemptOutcome → Bool
  | .acquireFail => true
  | .extractExn _ => true
  | .ok _ => false

/-- Environment of one task: the oracle for the outcome of each attempt and
the observations of `shutdown_event.is_set()` at the two check points of
`_scrape_single_url` (line 193, start of the guarded block, and line 232, the
retry decision), indexed by attempt number. -/
structure TaskEnv where
  ext : Nat → AttemptOutcome
  sdStart : Nat → Bool
  sdRetry : Nat → Bool

/-- `task.retry_count += 1` (multi_thread_scraper.py line 233). -/
def bumpRetry (t : ScrapeTask) : ScrapeTask :=
  { t with retry_count := t.retry_count + 1 }

/-- The retry decision of line 232:
`task.retry_count < task.max_retries and not self.shutdown_event.is_set()`. -/
def shouldRetry (t : ScrapeTask) (sd : Bool) : Bool :=
  decide (t.retry_count < t.max_retries) && !sd

/-- `retry_delay = min(2 ** task.retry_count, 10)` (line 237); its argument is
the value of `task.retry_count` after the increment of line 233. -/
def retryDelay (rc : Nat) : Nat := min (2 ^ rc) 10

/-- The `ScrapeResult` built on the non-exception path (lines 210-217):
`success = data.get('error_message') is None`,
`error_message = data.get('error_message')`. -/
def okResult (t : ScrapeTask) (d : PageData) : ScrapeResult :=
  { task_id := t.task_id
    url := t.url
    data := d
    success := d.error_message.isNone
    error_message := d.error_message }

/-- The `ScrapeResult` built on the exception path once retries are exhausted
(lines 244-251): `data = {'error_message': str(e), 'original_url': task.url}`,
`success = False`, `error_message = str(e)`. -/
def errorResult (t : ScrapeTask) (msg : String) : ScrapeResult :=
  { task_id := t.task_id
    url := t.url
    data := { error_message := some msg, original_url := some t.url }
    success := false
    error_message := some msg }

/-- Embedding of `MultiThreadScraper._scrape_single_url`
(multi_thread_scraper.py lines 170-259).  `attempt` indexes the oracles of
`env` and is `0` for the call made by `scrape_urls`; the recursive retry of
line 241 increments it.  Returns `none` exactly when the shutdown check of
line 193 fires (the Python function returns `None` there). -/
def scrapeSingleUrl (env : TaskEnv) (t : ScrapeTask) (attempt : Nat) :
    Option ScrapeResult :=
  if env.sdStart attempt then none
  else
    match env.ext attempt with
    | .ok d => some (okResult t d)
    | .acquireFail =>
      if h : shouldRetry t (env.sdRetry attempt) then
        scrapeSingleUrl env (bumpRetry t) (attempt + 1)
      else some (errorResult t poolExhaustedMsg)
    | .extractExn m =>
      if h : shouldRetry t (env.sdRetry attempt) then
        scrapeSingleUrl env (bumpRetry t) (attempt + 1)
      else some (errorResult t m)
termination_by t.max_retries - t.retry_count
decreasing_by
  all_goals
    simp only [shouldRetry, Bool.and_eq_true, decide_eq_true_eq] at h
    simp only [bumpRetry]
    omega

/-- Observable resource events of one unit of work of `_scrape_single_url`:
* `acq`: `driver = self.driver_pool.get_driver(timeout=30)` succeeded
  (line 197);
* `extract`: `extract_data(driver, task.url)` was invoked (line 206);
* `retrySleep rc d`: `time.sleep(retry_delay)` before a retry (line 238),
  where `rc` is the value of `task.retry_count` after the increment of
  line 233 and `d` the slept delay;
* `rel`: `self.driver_pool.return_driver(driver)` in the `finally` block
  (line 259; it runs only when `driver` is not `None`). -/
inductive WorkerEvent where
  | acq : WorkerEvent
  | extract : WorkerEvent
  | retrySleep : Nat → Nat → WorkerEvent
  | rel : WorkerEvent
deriving Repr, DecidableEq

/-- The sequence of resource events produced by one call of
`_scrape_single_url`, mirroring the control flow of lines 190-259.  The
`finally` block of the Python frame runs only after the recursive retry of
line 241 has returned, so on a retry of an attempt that had acquired a
driver (`extractExn`), the events of the inner attempts would be nested
inside the `acq`/`rel` pair of the outer attempt; in this repository that
branch is unreachable (`SrcFaultsOnly`: `extract_data` never raises), so
every realizable retry starts with `driver = None` and no driver held. -/
def scrapeTrace (env : TaskEnv) (t : ScrapeTask) (attempt : Nat) :
    List WorkerEvent :=
  if env.sdStart attempt then []
  else
    match env.ext attempt with
    | .ok _ => [.acq, .extract, .rel]
    | .acquireFail =>
      if h : shouldRetry t (env.sdRetry attempt) then
        .retrySleep (t.retry_count + 1) (retryDelay (t.retry_count + 1)) ::
          scrapeTrace env (bumpRetry t) (attempt + 1)
      else []
    | .extractExn _ =>
      if h : shouldRetry t (env.sdRetry attempt) then
        [.acq, .extract,
          .retrySleep (t.retry_count + 1) (retryDelay (t.retry_count + 1))] ++
          scrapeTrace env (bumpRetry t) (attempt + 1) ++ [.rel]
      else [.acq, .extract, .rel]
termination_by t.max_retries - t.retry_count
decreasing_by
  all_goals
    simp only [shouldRetry, Bool.and_eq_true, decide_eq_true_eq] at h
    simp only [bumpRetry]
    omega

/-- Number of `extract_data` invocations recorded in a trace. -/
def extractCalls (tr : List WorkerEvent) : Nat :=
  tr.countP fun e => e == WorkerEvent.extract

/-- The retry sleeps recorded in a trace, as pairs
(post-increment retry count, slept delay). -/
def retrySleeps (tr : List WorkerEvent) : List (Nat × Nat) :=
  tr.filterMap fun e =>
    match e with
    | .retrySleep rc d => some (rc, d)
    | _ => none

/-- Contribution of an event to the number of drivers held by the worker. -/
def heldDelta : WorkerEvent → Int
  | .acq => 1
  | .rel => -1
  | _ => 0

/-- Number of drivers held by the worker after a sequence of events, starting
from zero. -/
def heldAfter (tr : List WorkerEvent) : Int :=
  (tr.map heldDelta).sum

/-- Running maximum of the number of held drivers along a trace, starting
from `cur` held drivers. -/
def maxHeldFrom (cur : Int) : List WorkerEvent → Int
  | [] => cur
  | e :: es => max cur (maxHeldFrom (cur + heldDelta e) es)

/-- Maximum number of drivers simultaneously held by the worker at any
instant of the unit of work described by a trace. -/
def maxHeld (tr : List WorkerEvent) : Int :=
  maxHeldFrom 0 tr

/-! ### ProgressTracker (multi_thread_scraper.py lines 32-71) -/

/-- The raw counters of `ProgressTracker` (lines 35-40).  `start_time` is not
stored: the elapsed time `time.time() - self.start_time` is passed explicitly
to `get_progress`. -/
structure ProgressTracker where
  total_tasks : Nat
  completed_tasks : Nat := 0
  failed_tasks : Nat := 0
deriving Repr, DecidableEq

/-- `ProgressTracker.update_progress` (lines 42-47). -/
def update_progress (pt : ProgressTracker) (success : Bool) : ProgressTracker :=
  { pt with
    completed_tasks := pt.completed_tasks + 1
    failed_tasks := pt.failed_tasks + (if success then 0 else 1) }

/-- The dictionary returned by `ProgressTracker.get_progress` (lines 49-62);
numeric values are exact rationals (`round(x, 2)` display rounding of Python
floats is not modelled). -/
structure ProgressSnapshot where
  total_tasks : Nat
  completed_tasks : Nat
  failed_tasks : Nat
  success_rate : ℚ
  elapsed_time : ℚ
  estimated_remaining : ℚ
deriving Repr, DecidableEq

/-- `ProgressTracker._estimate_remaining_time` (lines 64-71): returns `0.0`
when `completed_tasks == 0`, otherwise
`(elapsed_time / completed_tasks) * (total_tasks - completed_tasks)`. -/
def estimateRemainingTime (pt : ProgressTracker) (elapsed_time : ℚ) : ℚ :=
  if pt.completed_tasks = 0 then 0
  else
    (elapsed_time / pt.completed_tasks) *
      ((pt.total_tasks : ℚ) - pt.completed_tasks)

/-- `ProgressTracker.get_progress` (lines 49-62), with the elapsed wall-clock
time passed as a parameter.
`success_rate = ((completed - failed) / max(completed, 1)) * 100`. -/
def get_progress (pt : ProgressTracker) (elapsed_time : ℚ) : ProgressSnapshot :=
  { total_tasks := pt.total_tasks
    completed_tasks := pt.completed_tasks
    failed_tasks := pt.failed_tasks
    success_rate :=
      (((pt.completed_tasks : ℚ) - pt.failed_tasks) /
        ((max pt.completed_tasks 1 : Nat) : ℚ)) * 100
    elapsed_time := elapsed_time
    estimated_remaining := estimateRemainingTime pt elapsed_time }

/-! ### DriverPool as a state machine (driver_pool.py)

The pool's shared mutable state is the driver queue (`driver_queue`) and the
set of checked-out drivers (`active_drivers`).  The counting abstraction
below tracks `available = driver_queue.qsize()`,
`active = len(active_drivers)`, and `transit`, the number of drivers that
have been removed from one of the two containers but not yet inserted into
the other — drivers observed between the `queue.get` of line 88 and the
`active_drivers.add` of line 90, or between the `active_drivers.remove` of
line 105 and the `queue.put` of lines 109/117.  Each constructor of
`PoolStep` is one atomic container mutation, so the reachable states cover
every observable instant of any interleaving of `get_driver` and
`return_driver` calls. -/

/-- Counting abstraction of the `DriverPool` shared state. -/
structure PoolState where
  available : Nat
  transit : Nat
  active : Nat
deriving Repr, DecidableEq

/-- One atomic container mutation of `DriverPool`:
* `dequeue`: `driver_queue.get` succeeds (line 88);
* `markActive`: `active_drivers.add(driver)` (line 90);
* `acquireTimeout`: `driver_queue.get` raises `Empty` (line 93); no state
  change;
* `unmarkActive`: `active_drivers.remove(driver)` (line 105);
* `requeueHealthy`: `driver_queue.put(driver)` for a healthy driver
  (line 109);
* `requeueReplacement`: the driver was unhealthy, was quit, and a
  replacement was created and enqueued (lines 113-117);
* `dropUnreplaced`: the driver was unhealthy and creating its replacement
  failed (lines 119-120); the driver is gone. -/
inductive PoolStep : PoolState → PoolState → Prop where
  | dequeue (s : PoolState) (h : 0 < s.available) :
      PoolStep s ⟨s.available - 1, s.transit + 1, s.active⟩
  | markActive (s : PoolState) (h : 0 < s.transit) :
      PoolStep s ⟨s.available, s.transit - 1, s.active + 1⟩
  | acquireTimeout (s : PoolState) : PoolStep s s
  | unmarkActive (s : PoolState) (h : 0 < s.active) :
      PoolStep s ⟨s.available, s.transit + 1, s.active - 1⟩
  | requeueHealthy (s : PoolState) (h : 0 < s.transit) :
      PoolStep s ⟨s.available + 1, s.transit - 1, s.active⟩
  | requeueReplacement (s : PoolState) (h : 0 < s.transit) :
      PoolStep s ⟨s.available + 1, s.transit - 1, s.active⟩
  | dropUnreplaced (s : PoolState) (h : 0 < s.transit) :
      PoolStep s ⟨s.available, s.transit - 1, s.active⟩

/-- The state right after `_initialize_pool` (lines 69-83): `created` drivers
were successfully constructed and enqueued (creation is best-effort, so
`created ≤ pool_size`), none are active. -/
def initPool (created : Nat) : PoolState := ⟨created, 0, 0⟩

/-- States reachable from `s₀` by any interleaving of pool operations. -/
def PoolReachable (s₀ : PoolState) (s : PoolState) : Prop :=
  Relation.ReflTransGen PoolStep s₀ s

/-! ### scrape_urls (multi_thread_scraper.py lines 98-168) -/

/-- Oracles for a whole run: attempt outcomes and shutdown observations per
task (first index: `task_id`), plus `sdMain`, the observation of
`shutdown_event.is_set()` made by the collection loop at line 135 before
processing the i-th completed future. -/
structure RunEnv where
  ext : Nat → Nat → AttemptOutcome
  sdStart : Nat → Nat → Bool
  sdRetry : Nat → Nat → Bool
  sdMain : Nat → Bool

/-- The environment seen by the task with id `i`. -/
def taskEnv (env : RunEnv) (i : Nat) : TaskEnv :=
  ⟨env.ext i, env.sdStart i, env.sdRetry i⟩

/-- Task construction of lines 113-114:
`ScrapeTask(url=url, task_id=i, max_retries=self.max_retries)` for
`i, url in enumerate(urls)`. -/
def mkTasks (urls : List String) (max_retries : Nat) : List ScrapeTask :=
  urls.enum.map fun p =>
    { url := p.2, task_id := p.1, retry_count := 0, max_retries := max_retries }

/-- The future of the task with id `i`: the value `_scrape_single_url` returns
for it (tasks are submitted for every id at line 129; ids outside the task
list never occur in a completion order). -/
def futureOf (env : RunEnv) (max_retries : Nat) (urls : List String)
    (i : Nat) : Option ScrapeResult :=
  match (mkTasks urls max_retries)[i]? with
  | some t => scrapeSingleUrl (taskEnv env i) t 0
  | none => none

/-- The collection loop of lines 134-152 over the futures in completion
order `order` (the order produced by `as_completed`): before processing each
future the loop observes the shutdown flag (line 135) and breaks if it is
set; otherwise, when the future's value is not `None`, it is appended to
`results` (lines 142-144).  `step` counts loop iterations and indexes
`sdMain`. -/
def collectLoop (fut : Nat → Option ScrapeResult) (sdMain : Nat → Bool) :
    List Nat → Nat → List ScrapeResult
  | [], _ => []
  | i :: rest, step =>
    if sdMain step then []
    else
      match fut i with
      | some r => r :: collectLoop fut sdMain rest (step + 1)
      | none => collectLoop fut sdMain rest (step + 1)

/-- The arguments passed to `self.progress_callback` by the collection loop
(lines 146-149): one invocation per processed future, receiving that
future's value (possibly `None`).  The `finally` block of lines 161-164 only
logs the final progress; it performs no callback invocation. -/
def callbackCalls (fut : Nat → Option ScrapeResult) (sdMain : Nat → Bool) :
    List Nat → Nat → List (Option ScrapeResult)
  | [], _ => []
  | i :: rest, step =>
    if sdMain step then []
    else fut i :: callbackCalls fut sdMain rest (step + 1)

/-- `results.sort(key=lambda x: x.task_id)` (line 167); Python's stable sort
is modelled by insertion sort on the `task_id` key. -/
def sortResults (rs : List ScrapeResult) : List ScrapeResult :=
  rs.insertionSort fun a b => a.task_id ≤ b.task_id

/-- Embedding of `MultiThreadScraper.scrape_urls` (lines 98-168): build one
task per url, run them, collect the futures' values in completion order
`order` until the shutdown flag is observed, and sort by `task_id`. -/
def scrape_urls (env : RunEnv) (max_retries : Nat) (urls : List String)
    (order : List Nat) : List ScrapeResult :=
  if urls.isEmpty then []
  else
    sortResults
      (collectLoop (futureOf env max_retries urls) env.sdMain order 0)

/-- The list of `result` arguments handed to the progress callback during
`scrape_urls` (no invocation happens for an empty url list: the function
returns at line 110 before the loop). -/
def callbackArgsOfRun (env : RunEnv) (max_retries : Nat)
    (urls : List String) (order : List Nat) : List (Option ScrapeResult) :=
  if urls.isEmpty then []
  else callbackCalls (futureOf env max_retries urls) env.sdMain order 0

/-- In this repository the guarded block of `_scrape_single_url` can raise
only through `get_driver`: `extract_data` (facebook_scrapper.py lines
182-290) wraps its whole body in `try/except` handlers that record the error
in `data['error_message']` and return the dictionary instead of raising.
An environment satisfying this predicate produces no `extractExn` outcome. -/
def SrcFaultsOnly (env : TaskEnv) : Prop :=
  ∀ j m, env.ext j ≠ AttemptOutcome.extractExn m

/-- Placeholder result used only as the default of `Option.getD` in proofs
(never the value of any future). -/
def defaultResult : ScrapeResult :=
  { task_id := 0, url := "", data := {}, success := false }

/-- A task environment whose every attempt succeeds with an empty payload. -/
def okTaskEnv : TaskEnv :=
  ⟨fun _ => AttemptOutcome.ok {}, fun _ => false, fun _ => false⟩

/-- A task environment whose first attempt raises in `extract_data` and whose
later attempts succeed; no shutdown is ever requested. -/
def failOnceEnv : TaskEnv :=
  ⟨fun a => if a = 0 then AttemptOutcome.extractExn ("boom")
    else AttemptOutcome.ok {},
   fun _ => false, fun _ => false⟩

/-- A task environment whose every attempt raises in `extract_data`. -/
def allExnEnv : TaskEnv :=
  ⟨fun _ => AttemptOutcome.extractExn ("boom"), fun _ => false,
   fun _ => false⟩

/-- A task environment in which the pool is exhausted on the first attempt
and a driver is obtained on every later attempt. -/
def exhaustOnceEnv : TaskEnv :=
  ⟨fun a => if a = 0 then AttemptOutcome.acquireFail
    else AttemptOutcome.ok {},
   fun _ => false, fun _ => false⟩

/-- A task environment in which the pool is exhausted on every attempt. -/
def allExhaustEnv : TaskEnv :=
  ⟨fun _ => AttemptOutcome.acquireFail, fun _ => false, fun _ => false⟩

/-- A run environment where every attempt of every task succeeds with an
empty payload and shutdown is never requested. -/
def okRunEnv : RunEnv :=
  ⟨fun _ _ => AttemptOutcome.ok {}, fun _ _ => false, fun _ _ => false,
   fun _ => false⟩

/-- A run environment where the pool is exhausted on every attempt of every
task and shutdown is never requested. -/
def exhaustRunEnv : RunEnv :=
  ⟨fun _ _ => AttemptOutcome.acquireFail, fun _ _ => false,
   fun _ _ => false, fun _ => false⟩

/-- A run environment where every attempt succeeds but the shutdown flag is
observed set by the collection loop from its second observation on
(signal after one processed future). -/
def shutdownAfterOneEnv : RunEnv :=
  ⟨fun _ _ => AttemptOutcome.ok {}, fun _ _ => false, fun _ _ => false,
   fun j => decide (1 ≤ j)⟩

/-! ### Basic lemmas about the single-task embedding -/

@[simp]
lemma bumpRetry_url (t : ScrapeTask) : (bumpRetry t).url = t.url := rfl

@[simp]
lemma bumpRetry_task_id (t : ScrapeTask) : (bumpRetry t).task_id = t.task_id :=
  rfl

@[simp]
lemma bumpRetry_retry_count (t : ScrapeTask) :
    (bumpRetry t).retry_count = t.retry_count + 1 := rfl

@[simp]
lemma bumpRetry_max_retries (t : ScrapeTask) :
    (bumpRetry t).max_retries = t.max_retries := rfl

@[simp]
lemma errorResult_bumpRetry (t : ScrapeTask) (m : String) :
    errorResult (bumpRetry t) m = errorResult t m := rfl

lemma shouldRetry_iff (t : ScrapeTask) (sd : Bool) :
    shouldRetry t sd = true ↔ t.retry_count < t.max_retries ∧ sd = false := by
  simp [shouldRetry]

@[simp]
lemma heldAfter_nil : heldAfter [] = 0 := rfl

@[simp]
lemma heldAfter_cons (e : WorkerEvent) (l : List WorkerEvent) :
    heldAfter (e :: l) = heldDelta e + heldAfter l := by
  simp [heldAfter]

@[simp]
lemma heldAfter_append (l₁ l₂ : List WorkerEvent) :
    heldAfter (l₁ ++ l₂) = heldAfter l₁ + heldAfter l₂ := by
  simp [heldAfter]

lemma le_maxHeldFrom (c : Int) (l : List WorkerEvent) : c ≤ maxHeldFrom c l := by
  induction l generalizing c with
  | nil => simp [maxHeldFrom]
  | cons e es ih => simp [maxHeldFrom]

lemma heldAfter_le_maxHeldFrom (c : Int) (l : List WorkerEvent) :
    c + heldAfter l ≤ maxHeldFrom c l := by
  induction l generalizing c with
  | nil => simp [maxHeldFrom]
  | cons e es ih =>
    have h := ih (c + heldDelta e)
    simp only [maxHeldFrom, heldAfter_cons]
    refine le_trans ?_ (le_max_right _ _)
    omega

lemma maxHeldFrom_append (c : Int) (l₁ l₂ : List WorkerEvent) :
    maxHeldFrom c (l₁ ++ l₂) =
      max (maxHeldFrom c l₁) (maxHeldFrom (c + heldAfter l₁) l₂) := by
  induction l₁ generalizing c with
  | nil =>
    simp only [List.nil_append, maxHeldFrom, heldAfter_nil, add_zero]
    exact (max_eq_right (le_maxHeldFrom c l₂)).symm
  | cons e es ih =>
    simp only [List.cons_append, maxHeldFrom, List.append_eq]
    rw [ih, heldAfter_cons, ← add_assoc, ← max_assoc]

lemma maxHeldFrom_shift (d c : Int) (l : List WorkerEvent) :
    maxHeldFrom (d + c) l = d + maxHeldFrom c l := by
  induction l generalizing c with
  | nil => simp [maxHeldFrom]
  | cons e es ih =>
    simp only [maxHeldFrom, add_assoc, ih]
    omega

lemma maxHeld_nonneg (l : List WorkerEvent) : 0 ≤ maxHeld l :=
  le_maxHeldFrom 0 l

/-- Without shutdown, `_scrape_single_url` always returns a `ScrapeResult`
(never `None`), and the result carries the task's own `task_id` and `url`. -/
lemma scrapeSingleUrl_some (env : TaskEnv) (t : ScrapeTask) (attempt : Nat)
    (hs : ∀ a, env.sdStart a = false) :
    ∃ r, scrapeSingleUrl env t attempt = some r ∧
      r.task_id = t.task_id ∧ r.url = t.url := by
  generalize hn : t.max_retries - t.retry_count = n
  induction n generalizing t attempt with
  | zero =>
    have hrc : ¬t.retry_count < t.max_retries := by omega
    cases hext : env.ext attempt with
    | ok d =>
      exact ⟨okResult t d, by rw [scrapeSingleUrl]; simp [hs attempt, hext],
        rfl, rfl⟩
    | acquireFail =>
      exact ⟨errorResult t poolExhaustedMsg,
        by rw [scrapeSingleUrl]; simp [hs attempt, hext, shouldRetry, hrc],
        rfl, rfl⟩
    | extractExn m =>
      exact ⟨errorResult t m,
        by rw [scrapeSingleUrl]; simp [hs attempt, hext, shouldRetry, hrc],
        rfl, rfl⟩
  | succ n ih =>
    cases hext : env.ext attempt with
    | ok d =>
      exact ⟨okResult t d, by rw [scrapeSingleUrl]; simp [hs attempt, hext],
        rfl, rfl⟩
    | acquireFail =>
      by_cases hsr : shouldRetry t (env.sdRetry attempt) = true
      · obtain ⟨r, hr, hid, hurl⟩ := ih (bumpRetry t) (attempt + 1)
          (by rw [shouldRetry_iff] at hsr; simp [bumpRetry]; omega)
        refine ⟨r, ?_, by simpa using hid, by simpa using hurl⟩
        rw [scrapeSingleUrl]
        simp [hs attempt, hext, hsr, hr]
      · simp only [Bool.not_eq_true] at hsr
        exact ⟨errorResult t poolExhaustedMsg,
          by rw [scrapeSingleUrl]; simp [hs attempt, hext, hsr], rfl, rfl⟩
    | extractExn m =>
      by_cases hsr : shouldRetry t (env.sdRetry attempt) = true
      · obtain ⟨r, hr, hid, hurl⟩ := ih (bumpRetry t) (attempt + 1)
          (by rw [shouldRetry_iff] at hsr; simp [bumpRetry]; omega)
        refine ⟨r, ?_, by simpa using hid, by simpa using hurl⟩
        rw [scrapeSingleUrl]
        simp [hs attempt, hext, hsr, hr]
      · simp only [Bool.not_eq_true] at hsr
        exact ⟨errorResult t m,
          by rw [scrapeSingleUrl]; simp [hs attempt, hext, hsr], rfl, rfl⟩

/-- When the shutdown flag is already observed at the start of the attempt,
the worker does nothing: no driver acquired, no extraction, no result. -/
lemma scrapeSingleUrl_shutdown (env : TaskEnv) (t : ScrapeTask)
    (attempt : Nat) (hs : env.sdStart attempt = true) :
    scrapeSingleUrl env t attempt = none ∧ scrapeTrace env t attempt = [] := by
  rw [scrapeSingleUrl, scrapeTrace, hs]
  simp

/-- If every attempt raises, the task finalizes with the error result built
from the exception of its last attempt (attempt number
`attempt + (max_retries - retry_count)`). -/
lemma scrapeSingleUrl_all_fail (env : TaskEnv) (t : ScrapeTask) (attempt : Nat)
    (hf : ∀ j, (env.ext j).isFailure = true)
    (hs : ∀ a, env.sdStart a = false) (hr : ∀ a, env.sdRetry a = false) :
    scrapeSingleUrl env t attempt =
      some (errorResult t
        (failMsg (env.ext (attempt + (t.max_retries - t.retry_count))))) := by
  generalize hn : t.max_retries - t.retry_count = n
  induction n generalizing t attempt with
  | zero =>
    have hrc : ¬t.retry_count < t.max_retries := by omega
    cases hext : env.ext attempt with
    | ok d =>
      have := hf attempt; rw [hext] at this
      simp [AttemptOutcome.isFailure] at this
    | acquireFail =>
      rw [scrapeSingleUrl]
      simp [hs attempt, hext, shouldRetry, hrc, failMsg, hn]
    | extractExn m =>
      rw [scrapeSingleUrl]
      simp [hs attempt, hext, shouldRetry, hrc, failMsg, hn]
  | succ n ih =>
    have hrc : t.retry_count < t.max_retries := by omega
    have hsr : shouldRetry t (env.sdRetry attempt) = true := by
      rw [shouldRetry_iff]; exact ⟨hrc, hr attempt⟩
    have hmeas : (bumpRetry t).max_retries - (bumpRetry t).retry_count = n := by
      simp [bumpRetry]; omega
    have hrec := ih (bumpRetry t) (attempt + 1) hmeas
    have hidx : attempt + 1 + n = attempt + (n + 1) := by omega
    rw [hidx, errorResult_bumpRetry] at hrec
    cases hext : env.ext attempt with
    | ok d =>
      have := hf attempt; rw [hext] at this
      simp [AttemptOutcome.isFailure] at this
    | acquireFail =>
      rw [scrapeSingleUrl]
      simp [hs attempt, hext, hsr, hrec]
    | extractExn m =>
      rw [scrapeSingleUrl]
      simp [hs attempt, hext, hsr, hrec]

@[simp]
lemma extractCalls_nil : extractCalls [] = 0 := rfl

@[simp]
lemma extractCalls_cons (e : WorkerEvent) (l : List WorkerEvent) :
    extractCalls (e :: l) =
      extractCalls l + (if e = WorkerEvent.extract then 1 else 0) := by
  simp [extractCalls, List.countP_cons]

@[simp]
lemma extractCalls_append (l₁ l₂ : List WorkerEvent) :
    extractCalls (l₁ ++ l₂) = extractCalls l₁ + extractCalls l₂ := by
  simp [extractCalls, List.countP_append]

@[simp]
lemma retrySleeps_nil : retrySleeps [] = [] := rfl

@[simp]
lemma retrySleeps_append (l₁ l₂ : List WorkerEvent) :
    retrySleeps (l₁ ++ l₂) = retrySleeps l₁ ++ retrySleeps l₂ := by
  simp [retrySleeps]

/-- The Extractor is invoked at most `max_retries - retry_count + 1` times by
one unit of work. -/
lemma extractCalls_scrapeTrace_le (env : TaskEnv) (t : ScrapeTask)
    (attempt : Nat) :
    extractCalls (scrapeTrace env t attempt) ≤
      (t.max_retries - t.retry_count) + 1 := by
  generalize hn : t.max_retries - t.retry_count = n
  induction n generalizing t attempt with
  | zero =>
    have hrc : ¬t.retry_count < t.max_retries := by omega
    rw [scrapeTrace]
    by_cases hss : env.sdStart attempt = true
    · simp [hss]
    · simp only [Bool.not_eq_true] at hss
      cases hext : env.ext attempt with
      | ok d => simp [hss, hext]
      | acquireFail => simp [hss, hext, shouldRetry, hrc]
      | extractExn m => simp [hss, hext, shouldRetry, hrc]
  | succ n ih =>
    rw [scrapeTrace]
    by_cases hss : env.sdStart attempt = true
    · simp [hss]
    · simp only [Bool.not_eq_true] at hss
      cases hext : env.ext attempt with
      | ok d => simp [hss, hext]
      | acquireFail =>
        by_cases hsr : shouldRetry t (env.sdRetry attempt) = true
        · have hih := ih (bumpRetry t) (attempt + 1)
            (by rw [shouldRetry_iff] at hsr; simp [bumpRetry]; omega)
          simp [hss, hext, hsr]
          omega
        · simp only [Bool.not_eq_true] at hsr
          simp [hss, hext, hsr]
      | extractExn m =>
        by_cases hsr : shouldRetry t (env.sdRetry attempt) = true
        · have hih := ih (bumpRetry t) (attempt + 1)
            (by rw [shouldRetry_iff] at hsr; simp [bumpRetry]; omega)
          simp [hss, hext, hsr]
          omega
        · simp only [Bool.not_eq_true] at hsr
          simp [hss, hext, hsr]

/-- When every attempt raises inside `extract_data` and shutdown is never
requested, the Extractor is invoked exactly `max_retries - retry_count + 1`
times before the task finalizes. -/
lemma extractCalls_scrapeTrace_all_exn (env : TaskEnv) (t : ScrapeTask)
    (attempt : Nat) (hf : ∀ j, ∃ m, env.ext j = AttemptOutcome.extractExn m)
    (hs : ∀ a, env.sdStart a = false) (hr : ∀ a, env.sdRetry a = false) :
    extractCalls (scrapeTrace env t attempt) =
      (t.max_retries - t.retry_count) + 1 := by
  generalize hn : t.max_retries - t.retry_count = n
  induction n generalizing t attempt with
  | zero =>
    have hrc : ¬t.retry_count < t.max_retries := by omega
    obtain ⟨m, hext⟩ := hf attempt
    rw [scrapeTrace]
    simp [hs attempt, hext, shouldRetry, hrc]
  | succ n ih =>
    have hrc : t.retry_count < t.max_retries := by omega
    have hsr : shouldRetry t (env.sdRetry attempt) = true := by
      rw [shouldRetry_iff]; exact ⟨hrc, hr attempt⟩
    have hih := ih (bumpRetry t) (attempt + 1) (by simp [bumpRetry]; omega)
    obtain ⟨m, hext⟩ := hf attempt
    rw [scrapeTrace]
    simp [hs attempt, hext, hsr]
    omega

/-- Once the shutdown flag is observed at the retry decision of every
attempt, the unit of work performs no retry: no backoff sleep occurs and the
Extractor runs at most once. -/
lemma scrapeTrace_sdRetry (env : TaskEnv) (t : ScrapeTask) (attempt : Nat)
    (hr : env.sdRetry attempt = true) :
    retrySleeps (scrapeTrace env t attempt) = [] ∧
      extractCalls (scrapeTrace env t attempt) ≤ 1 := by
  have hsr : shouldRetry t (env.sdRetry attempt) = false := by
    simp [shouldRetry, hr]
  rw [scrapeTrace]
  by_cases hss : env.sdStart attempt = true
  · simp [hss]
  · simp only [Bool.not_eq_true] at hss
    cases hext : env.ext attempt with
    | ok d => simp [hss, hext, retrySleeps]
    | acquireFail => simp [hss, hext, hsr]
    | extractExn m => simp [hss, hext, hsr, retrySleeps]

/-- The backoff sleeps performed by one unit of work: the j-th retry (counted
from zero) sleeps exactly `min (2 ^ (retry_count + j + 1)) 10` time units,
the exponent being the incremented retry count at that retry. -/
lemma retrySleeps_scrapeTrace (env : TaskEnv) (t : ScrapeTask)
    (attempt : Nat) :
    ∃ k, retrySleeps (scrapeTrace env t attempt) =
      (List.range k).map fun j =>
        (t.retry_count + j + 1, retryDelay (t.retry_count + j + 1)) := by
  generalize hn : t.max_retries - t.retry_count = n
  induction n generalizing t attempt with
  | zero =>
    have hrc : ¬t.retry_count < t.max_retries := by omega
    refine ⟨0, ?_⟩
    rw [scrapeTrace]
    by_cases hss : env.sdStart attempt = true
    · simp [hss]
    · simp only [Bool.not_eq_true] at hss
      cases hext : env.ext attempt with
      | ok d => simp [hss, hext, retrySleeps]
      | acquireFail => simp [hss, hext, shouldRetry, hrc]
      | extractExn m => simp [hss, hext, shouldRetry, hrc, retrySleeps]
  | succ n ih =>
    rw [scrapeTrace]
    by_cases hss : env.sdStart attempt = true
    · exact ⟨0, by simp [hss]⟩
    · simp only [Bool.not_eq_true] at hss
      cases hext : env.ext attempt with
      | ok d => exact ⟨0, by simp [hss, hext, retrySleeps]⟩
      | acquireFail =>
        by_cases hsr : shouldRetry t (env.sdRetry attempt) = true
        · obtain ⟨k, hk⟩ := ih (bumpRetry t) (attempt + 1)
            (by rw [shouldRetry_iff] at hsr; simp [bumpRetry]; omega)
          refine ⟨k + 1, ?_⟩
          simp only [hss, Bool.false_eq_true, if_false, hext, dif_pos hsr]
          simp only [retrySleeps, List.filterMap_cons] at hk ⊢
          rw [hk, List.range_succ_eq_map, List.map_cons, List.map_map]
          simp only [bumpRetry_retry_count]
          refine List.cons_eq_cons.mpr ⟨rfl, ?_⟩
          apply List.map_congr_left
          intro j hj
          have hje : t.retry_count + 1 + j = t.retry_count + (j + 1) := by
            omega
          simp [Function.comp, hje]
        · simp only [Bool.not_eq_true] at hsr
          exact ⟨0, by simp [hss, hext, hsr]⟩
      | extractExn m =>
        by_cases hsr : shouldRetry t (env.sdRetry attempt) = true
        · obtain ⟨k, hk⟩ := ih (bumpRetry t) (attempt + 1)
            (by rw [shouldRetry_iff] at hsr; simp [bumpRetry]; omega)
          refine ⟨k + 1, ?_⟩
          simp only [hss, Bool.false_eq_true, if_false, hext, dif_pos hsr]
          rw [retrySleeps_append, retrySleeps_append]
          simp only [retrySleeps, List.filterMap_cons] at hk ⊢
          rw [hk, List.range_succ_eq_map, List.map_cons, List.map_map]
          simp only [bumpRetry_retry_count, List.filterMap_nil,
            List.append_nil, List.nil_append]
          refine List.cons_eq_cons.mpr ⟨rfl, ?_⟩
          apply List.map_congr_left
          intro j hj
          have hje : t.retry_count + 1 + j = t.retry_count + (j + 1) := by
            omega
          simp [Function.comp, hje]
        · simp only [Bool.not_eq_true] at hsr
          exact ⟨0, by simp [hss, hext, hsr, retrySleeps]⟩

/-- Every driver acquired during the unit of work has been returned to the
pool when the unit of work ends. -/
lemma heldAfter_scrapeTrace (env : TaskEnv) (t : ScrapeTask)
    (attempt : Nat) : heldAfter (scrapeTrace env t attempt) = 0 := by
  generalize hn : t.max_retries - t.retry_count = n
  induction n generalizing t attempt with
  | zero =>
    have hrc : ¬t.retry_count < t.max_retries := by omega
    rw [scrapeTrace]
    by_cases hss : env.sdStart attempt = true
    · simp [hss]
    · simp only [Bool.not_eq_true] at hss
      cases hext : env.ext attempt with
      | ok d => simp [hss, hext, heldDelta]
      | acquireFail => simp [hss, hext, shouldRetry, hrc]
      | extractExn m => simp [hss, hext, shouldRetry, hrc, heldDelta]
  | succ n ih =>
    rw [scrapeTrace]
    by_cases hss : env.sdStart attempt = true
    · simp [hss]
    · simp only [Bool.not_eq_true] at hss
      cases hext : env.ext attempt with
      | ok d => simp [hss, hext, heldDelta]
      | acquireFail =>
        by_cases hsr : shouldRetry t (env.sdRetry attempt) = true
        · have hih := ih (bumpRetry t) (attempt + 1)
            (by rw [shouldRetry_iff] at hsr; simp [bumpRetry]; omega)
          simp [hss, hext, hsr, hih, heldDelta]
        · simp only [Bool.not_eq_true] at hsr
          simp [hss, hext, hsr]
      | extractExn m =>
        by_cases hsr : shouldRetry t (env.sdRetry attempt) = true
        · have hih := ih (bumpRetry t) (attempt + 1)
            (by rw [shouldRetry_iff] at hsr; simp [bumpRetry]; omega)
          simp [hss, hext, hsr, hih, heldDelta]
        · simp only [Bool.not_eq_true] at hsr
          simp [hss, hext, hsr, heldDelta]

lemma maxHeldFrom_eq (c : Int) (l : List WorkerEvent) :
    maxHeldFrom c l = c + maxHeldFrom 0 l := by
  have h := maxHeldFrom_shift c 0 l
  simpa using h

/-- A backoff sleep changes nothing about held drivers. -/
lemma maxHeld_sleep_cons (rc d : Nat) (inner : List WorkerEvent) :
    maxHeld (WorkerEvent.retrySleep rc d :: inner) = maxHeld inner := by
  simp only [maxHeld, maxHeldFrom, heldDelta, add_zero]
  exact max_eq_right (le_maxHeldFrom 0 inner)

/-- Held-driver profile of an attempt that acquired a driver, failed in
`extract_data`, and performed its retries (`inner`) before its own `finally`
released the driver: the whole inner work happens with one extra driver
held. -/
lemma maxHeld_attempt_wrap (rc d : Nat) (inner : List WorkerEvent)
    (hbal : heldAfter inner = 0) :
    maxHeld ([WorkerEvent.acq, WorkerEvent.extract,
        WorkerEvent.retrySleep rc d] ++ inner ++ [WorkerEvent.rel]) =
      1 + maxHeld inner := by
  have hA : maxHeldFrom 0 [WorkerEvent.acq, WorkerEvent.extract,
      WorkerEvent.retrySleep rc d] = 1 := by
    simp only [maxHeldFrom, heldDelta]
    norm_num
  have hAafter : heldAfter [WorkerEvent.acq, WorkerEvent.extract,
      WorkerEvent.retrySleep rc d] = 1 := by
    simp [heldDelta]
  have hnn := maxHeld_nonneg inner
  simp only [maxHeld]
  rw [maxHeldFrom_append, maxHeldFrom_append, heldAfter_append, hA, hAafter,
    hbal, zero_add, add_zero, maxHeldFrom_eq 1 inner]
  have hrel : maxHeldFrom 1 [WorkerEvent.rel] = 1 := by
    simp only [maxHeldFrom, heldDelta]
    norm_num
  rw [zero_add, hrel]
  have h1 : (1 : Int) ≤ 1 + maxHeldFrom 0 inner := by
    simp only [maxHeld] at hnn
    omega
  rw [max_eq_right h1, max_eq_left h1]

/-- The worker holds at most `max_retries - retry_count + 1` drivers at any
instant of the unit of work (one per recursive retry frame on the stack plus
the current attempt's). -/
lemma maxHeld_scrapeTrace_le (env : TaskEnv) (t : ScrapeTask)
    (attempt : Nat) :
    maxHeld (scrapeTrace env t attempt) ≤
      ((t.max_retries - t.retry_count : Nat) : Int) + 1 := by
  have hone : maxHeld [WorkerEvent.acq, WorkerEvent.extract,
      WorkerEvent.rel] = 1 := by decide
  generalize hn : t.max_retries - t.retry_count = n
  induction n generalizing t attempt with
  | zero =>
    have hrc : ¬t.retry_count < t.max_retries := by omega
    rw [scrapeTrace]
    by_cases hss : env.sdStart attempt = true
    · simp only [hss, if_true]
      have : maxHeld [] = 0 := by decide
      rw [this]
      omega
    · simp only [Bool.not_eq_true] at hss
      have hsr : shouldRetry t (env.sdRetry attempt) = false := by
        simp [shouldRetry, hrc]
      cases hext : env.ext attempt with
      | ok d =>
        simp only [hss, Bool.false_eq_true, if_false, hext]
        rw [hone]; omega
      | acquireFail =>
        simp only [hss, Bool.false_eq_true, if_false, hext, hsr]
        simp only [Bool.false_eq_true, dite_false]
        have : maxHeld [] = 0 := by decide
        rw [this]; omega
      | extractExn m =>
        simp only [hss, Bool.false_eq_true, if_false, hext, hsr]
        simp only [Bool.false_eq_true, dite_false]
        rw [hone]; omega
  | succ n ih =>
    rw [scrapeTrace]
    by_cases hss : env.sdStart attempt = true
    · simp only [hss, if_true]
      have : maxHeld [] = 0 := by decide
      rw [this]
      omega
    · simp only [Bool.not_eq_true] at hss
      cases hext : env.ext attempt with
      | ok d =>
        simp only [hss, Bool.false_eq_true, if_false, hext]
        rw [hone]; omega
      | acquireFail =>
        by_cases hsr : shouldRetry t (env.sdRetry attempt) = true
        · have hih := ih (bumpRetry t) (attempt + 1)
            (by rw [shouldRetry_iff] at hsr; simp [bumpRetry]; omega)
          simp only [hss, Bool.false_eq_true, if_false, hext, dif_pos hsr]
          rw [maxHeld_sleep_cons]
          omega
        · simp only [Bool.not_eq_true] at hsr
          simp only [hss, Bool.false_eq_true, if_false, hext, hsr]
          simp only [Bool.false_eq_true, dite_false]
          have : maxHeld [] = 0 := by decide
          rw [this]; omega
      | extractExn m =>
        by_cases hsr : shouldRetry t (env.sdRetry attempt) = true
        · have hih := ih (bumpRetry t) (attempt + 1)
            (by rw [shouldRetry_iff] at hsr; simp [bumpRetry]; omega)
          have hbal := heldAfter_scrapeTrace env (bumpRetry t) (attempt + 1)
          simp only [hss, Bool.false_eq_true, if_false, hext, dif_pos hsr]
          rw [maxHeld_attempt_wrap _ _ _ hbal]
          omega
        · simp only [Bool.not_eq_true] at hsr
          simp only [hss, Bool.false_eq_true, if_false, hext, hsr]
          simp only [Bool.false_eq_true, dite_false]
          rw [hone]; omega

/-! ### Pool invariant lemmas -/

/-- No single pool operation increases the total number of drivers tracked by
the pool (an unhealthy driver whose replacement fails decreases it). -/
lemma poolStep_sum_le {s s' : PoolState} (h : PoolStep s s') :
    s'.available + s'.transit + s'.active ≤
      s.available + s.transit + s.active := by
  cases h <;> (try dsimp) <;> omega

lemma poolReachable_sum_le (created cap : Nat) (hc : created ≤ cap)
    (s : PoolState) (h : PoolReachable (initPool created) s) :
    s.available + s.transit + s.active ≤ cap := by
  induction h with
  | refl => simpa [initPool] using hc
  | tail hab hbc ih => exact le_trans (poolStep_sum_le hbc) ih

/-! ### Lemmas about the run-level embedding -/

lemma collectLoop_no_sd (fut : Nat → Option ScrapeResult)
    (sdMain : Nat → Bool) (h : ∀ j, sdMain j = false) (l : List Nat)
    (step : Nat) : collectLoop fut sdMain l step = l.filterMap fut := by
  induction l generalizing step with
  | nil => rfl
  | cons i rest ih =>
    rw [collectLoop, h step]
    cases hf : fut i <;> simp [List.filterMap_cons, hf, ih]

lemma callbackCalls_no_sd (fut : Nat → Option ScrapeResult)
    (sdMain : Nat → Bool) (h : ∀ j, sdMain j = false) (l : List Nat)
    (step : Nat) : callbackCalls fut sdMain l step = l.map fut := by
  induction l generalizing step with
  | nil => rfl
  | cons i rest ih =>
    rw [callbackCalls, h step]
    simp [ih]

/-- When the shutdown flag becomes (and stays) set at main-loop observation
`s`, the collection loop processes exactly the first `s - step` futures and
then breaks. -/
lemma collectLoop_cutoff (fut : Nat → Option ScrapeResult)
    (sdMain : Nat → Bool) (s : Nat) (h : ∀ j, sdMain j = true ↔ s ≤ j)
    (l : List Nat) (step : Nat) :
    collectLoop fut sdMain l step = (l.take (s - step)).filterMap fut := by
  induction l generalizing step with
  | nil => simp [collectLoop]
  | cons i rest ih =>
    rw [collectLoop]
    by_cases hs : s ≤ step
    · have hsd : sdMain step = true := (h step).mpr hs
      rw [hsd]
      have : s - step = 0 := by omega
      simp [this]
    · have hsd : ¬sdMain step = true := by rw [h step]; omega
      rw [if_neg hsd]
      have hts : s - step = (s - (step + 1)) + 1 := by omega
      rw [hts, List.take_succ_cons]
      cases hf : fut i <;> simp [List.filterMap_cons, hf, ih]

lemma mkTasks_getElem? (urls : List String) (mr i : Nat) :
    (mkTasks urls mr)[i]? = urls[i]?.map fun u =>
      ({ url := u, task_id := i, retry_count := 0, max_retries := mr } :
        ScrapeTask) := by
  simp only [mkTasks, List.getElem?_map, List.getElem?_enum]
  cases urls[i]? <;> rfl

/-- The future of an in-range task under a shutdown-free environment: a
result carrying the task's id and url. -/
lemma futureOf_some (env : RunEnv) (mr : Nat) (urls : List String) (i : Nat)
    (hi : i < urls.length) (hs : ∀ a, env.sdStart i a = false) :
    ∃ r, futureOf env mr urls i = some r ∧ r.task_id = i ∧
      r.url = urls.getD i "" := by
  have hu : urls[i]? = some (urls.getD i "") := by
    rw [List.getD_eq_getElem?_getD, List.getElem?_eq_getElem hi]
    rfl
  obtain ⟨r, hr, hid, hurl⟩ :=
    scrapeSingleUrl_some (taskEnv env i)
      { url := urls.getD i "", task_id := i, retry_count := 0,
        max_retries := mr } 0 hs
  refine ⟨r, ?_, hid, hurl⟩
  rw [futureOf, mkTasks_getElem?, hu]
  exact hr

lemma filterMap_congr_some {α β : Type} (f : α → Option β) (g : α → β)
    (l : List α) (h : ∀ x ∈ l, f x = some (g x)) :
    l.filterMap f = l.map g := by
  induction l with
  | nil => rfl
  | cons x xs ih =>
    rw [List.filterMap_cons, h x (List.mem_cons_self x xs), List.map_cons,
      ih fun y hy => h y (List.mem_cons_of_mem x hy)]

lemma map_getD_range {α : Type} (l : List α) (d : α) :
    (List.range l.length).map (fun i => l.getD i d) = l := by
  refine List.ext_getElem (by simp) ?_
  intro i h1 h2
  simp only [List.getElem_map, List.getElem_range, List.getD_eq_getElem?_getD,
    List.getElem?_eq_getElem h2, Option.getD_some]

instance : IsTotal ScrapeResult (fun a b => a.task_id ≤ b.task_id) :=
  ⟨fun a b => Nat.le_total a.task_id b.task_id⟩

instance : IsTrans ScrapeResult (fun a b => a.task_id ≤ b.task_id) :=
  ⟨fun _ _ _ hab hbc => Nat.le_trans hab hbc⟩

lemma sortResults_perm (rs : List ScrapeResult) : (sortResults rs).Perm rs :=
  List.perm_insertionSort _ rs

lemma sortResults_sorted (rs : List ScrapeResult) :
    (sortResults rs).Sorted (fun a b => a.task_id ≤ b.task_id) :=
  List.sorted_insertionSort _ rs

/-- If the multiset of task ids of `rs` is exactly `{0, …, n-1}`, sorting by
task id puts the result with task id `i` at position `i`. -/
lemma sortResults_map_task_id (rs : List ScrapeResult) (n : Nat)
    (hperm : (rs.map ScrapeResult.task_id).Perm (List.range n)) :
    (sortResults rs).map ScrapeResult.task_id = List.range n := by
  refine List.eq_of_perm_of_sorted ?_ ?_ (List.sorted_le_range n)
  · exact ((sortResults_perm rs).map ScrapeResult.task_id).trans hperm
  · have hs := sortResults_sorted rs
    rw [List.Sorted, List.pairwise_map]
    exact hs

/-- Characterization of a shutdown-free run over a completion order that
contains every task exactly once: the returned list enumerates one result
per input url, sorted back into input order, and every returned result is
the value of its own task's future. -/
lemma scrape_urls_no_sd_spec (env : RunEnv) (mr : Nat) (urls : List String)
    (order : List Nat) (hperm : order.Perm (List.range urls.length))
    (hsS : ∀ i a, env.sdStart i a = false) (hsM : ∀ j, env.sdMain j = false) :
    (scrape_urls env mr urls order).map ScrapeResult.url = urls ∧
    (scrape_urls env mr urls order).map ScrapeResult.task_id =
      List.range urls.length ∧
    ∀ r ∈ scrape_urls env mr urls order,
      futureOf env mr urls r.task_id = some r := by
  by_cases hemp : urls.isEmpty
  · have h0 : urls = [] := by simpa using hemp
    subst h0
    simp [scrape_urls]
  · set F := futureOf env mr urls with hF
    set rf : Nat → ScrapeResult := fun i => (F i).getD defaultResult with hrf
    have hmem : ∀ i ∈ order, i < urls.length := by
      intro i hi
      have := hperm.mem_iff.mp hi
      simpa [List.mem_range] using this
    have hsome : ∀ i, i < urls.length →
        F i = some (rf i) ∧ (rf i).task_id = i ∧
          (rf i).url = urls.getD i "" := by
      intro i hi
      obtain ⟨r, hr, hid, hurl⟩ := futureOf_some env mr urls i hi (hsS i)
      have hrfi : rf i = r := by rw [hrf]; simp only [hF, hr]; rfl
      rw [hrfi]
      exact ⟨hr, hid, hurl⟩
    have hcollect : collectLoop F env.sdMain order 0 = order.map rf := by
      rw [collectLoop_no_sd F env.sdMain hsM order 0]
      exact filterMap_congr_some F rf order
        fun i hi => (hsome i (hmem i hi)).1
    have hscr : scrape_urls env mr urls order = sortResults (order.map rf) := by
      simp only [scrape_urls, hemp, Bool.false_eq_true, if_false]
      rw [hcollect]
    have hmapid : (order.map rf).map ScrapeResult.task_id = order := by
      rw [List.map_map]
      have h : ∀ i ∈ order, (ScrapeResult.task_id ∘ rf) i = id i := by
        intro i hi
        simpa using (hsome i (hmem i hi)).2.1
      rw [List.map_congr_left h, List.map_id]
    have hpermid : ((order.map rf).map ScrapeResult.task_id).Perm
        (List.range urls.length) := by
      rw [hmapid]; exact hperm
    have hid : (sortResults (order.map rf)).map ScrapeResult.task_id =
        List.range urls.length :=
      sortResults_map_task_id _ _ hpermid
    have hself : ∀ x ∈ sortResults (order.map rf), x = rf x.task_id := by
      intro x hx
      have hx2 : x ∈ order.map rf := (sortResults_perm _).mem_iff.mp hx
      obtain ⟨i, hi, hxi⟩ := List.mem_map.mp hx2
      have hti := (hsome i (hmem i hi)).2.1
      rw [← hxi, hti]
    have hurl : (sortResults (order.map rf)).map ScrapeResult.url = urls := by
      have h1 : (sortResults (order.map rf)).map ScrapeResult.url =
          (sortResults (order.map rf)).map
            ((fun j => (rf j).url) ∘ ScrapeResult.task_id) :=
        List.map_congr_left fun x hx =>
          congrArg ScrapeResult.url (hself x hx)
      rw [h1, ← List.map_map, hid]
      have h2 : ∀ j ∈ List.range urls.length,
          (rf j).url = urls.getD j "" := by
        intro j hj
        exact (hsome j (List.mem_range.mp hj)).2.2
      rw [List.map_congr_left h2, map_getD_range]
    refine ⟨by rw [hscr]; exact hurl, by rw [hscr]; exact hid, ?_⟩
    rw [hscr]
    intro r hr
    have hr2 : r ∈ order.map rf := (sortResults_perm _).mem_iff.mp hr
    obtain ⟨i, hi, hxi⟩ := List.mem_map.mp hr2
    obtain ⟨hFi, hti, _⟩ := hsome i (hmem i hi)
    rw [← hxi, hti]
    exact hFi

/-- The result list of `scrape_urls` is sorted by `task_id` on every run,
shutdown or not. -/
lemma scrape_urls_sorted_by_id (env : RunEnv) (mr : Nat)
    (urls : List String) (order : List Nat) :
    (scrape_urls env mr urls order).Sorted
      (fun a b => a.task_id ≤ b.task_id) := by
  by_cases hemp : urls.isEmpty
  · simp [scrape_urls, hemp]
  · simp only [scrape_urls, hemp, Bool.false_eq_true, if_false]
    exact sortResults_sorted _

/-- When the shutdown flag becomes set at main-loop observation `s`, the run
returns exactly the (sorted) values of the futures processed before the
signal: the first `s` futures in completion order. -/
lemma scrape_urls_cutoff (env : RunEnv) (mr : Nat) (urls : List String)
    (order : List Nat) (s : Nat)
    (hsd : ∀ j, env.sdMain j = true ↔ s ≤ j) :
    scrape_urls env mr urls order =
      sortResults ((order.take s).filterMap (futureOf env mr urls)) := by
  by_cases hemp : urls.isEmpty
  · have h0 : urls = [] := by simpa using hemp
    subst h0
    have hnone : ∀ i, futureOf env mr ([] : List String) i = none := by
      intro i
      rw [futureOf]
      simp [mkTasks]
    have : (order.take s).filterMap (futureOf env mr ([] : List String)) =
        [] := by
      rw [List.filterMap_eq_nil_iff]
      intro a _
      exact hnone a
    rw [this]
    simp [scrape_urls, sortResults]
  · simp only [scrape_urls, hemp, Bool.false_eq_true, if_false]
    rw [collectLoop_cutoff _ _ s hsd order 0, Nat.sub_zero]

/-! ### Claim theorems -/

/-- Claim C1: every run of `scrape_urls` that completes without shutdown
being requested returns exactly one `ScrapeResult` per input url
(`len(results) == len(targets)`), and after the final sort by task id the
i-th result's url is the i-th input url — for every completion order of the
futures, i.e. regardless of which worker finished which task when. -/
theorem C1_one_sorted_result_per_target (env : RunEnv) (mr : Nat)
    (urls : List String) (order : List Nat)
    (hperm : order.Perm (List.range urls.length))
    (hsS : ∀ i a, env.sdStart i a = false)
    (hsM : ∀ j, env.sdMain j = false) :
    (scrape_urls env mr urls order).length = urls.length ∧
    (scrape_urls env mr urls order).map ScrapeResult.url = urls ∧
    (scrape_urls env mr urls order).map ScrapeResult.task_id =
      List.range urls.length := by
  obtain ⟨hurl, hid, _⟩ :=
    scrape_urls_no_sd_spec env mr urls order hperm hsS hsM
  refine ⟨?_, hurl, hid⟩
  have h := congrArg List.length hurl
  simpa using h

/-- Witness for C1: a concrete two-url run whose futures complete in
reversed order. -/
theorem C1_witness :
    (scrape_urls okRunEnv 3 ["a", "b"] [1, 0]).length = 2 ∧
    (scrape_urls okRunEnv 3 ["a", "b"] [1, 0]).map ScrapeResult.url =
      ["a", "b"] ∧
    (scrape_urls okRunEnv 3 ["a", "b"] [1, 0]).map ScrapeResult.task_id =
      List.range 2 := by
  have h := C1_one_sorted_result_per_target okRunEnv 3 ["a", "b"] [1, 0]
    (by decide) (fun i a => rfl) (fun j => rfl)
  simpa using h

/-- Claim C2: after a failed attempt the scheduler retries iff the task's
current retry count is strictly below `max_retries` and shutdown is not
requested (the decision `shouldRetry` of line 232), and consequently a task
created with `retry_count = 0` and `max_retries = k` invokes the Extractor
at most `k + 1` times before finalizing as one terminal result — exactly
`k + 1` times when every attempt raises in `extract_data` without shutdown,
and at most once when shutdown is observed at the retry decisions. -/
theorem C2_retry_iff_and_bound (env : TaskEnv) (t : ScrapeTask)
    (h0 : t.retry_count = 0) :
    (∀ sd, shouldRetry t sd = true ↔
      (t.retry_count < t.max_retries ∧ sd = false)) ∧
    extractCalls (scrapeTrace env t 0) ≤ t.max_retries + 1 ∧
    ((∀ j, ∃ m, env.ext j = AttemptOutcome.extractExn m) →
      (∀ a, env.sdStart a = false) → (∀ a, env.sdRetry a = false) →
      extractCalls (scrapeTrace env t 0) = t.max_retries + 1) ∧
    ((∀ a, env.sdRetry a = true) →
      extractCalls (scrapeTrace env t 0) ≤ 1) := by
  refine ⟨fun sd => shouldRetry_iff t sd, ?_, ?_, ?_⟩
  · have h := extractCalls_scrapeTrace_le env t 0
    rw [h0, Nat.sub_zero] at h
    exact h
  · intro hf hs hr
    have h := extractCalls_scrapeTrace_all_exn env t 0 hf hs hr
    rw [h0, Nat.sub_zero] at h
    exact h
  · intro hr
    exact (scrapeTrace_sdRetry env t 0 (hr 0)).2

/-- Witness for C2: a task with `max_retries = 2` whose every attempt raises
invokes the Extractor exactly 3 times. -/
theorem C2_witness :
    extractCalls (scrapeTrace allExnEnv ⟨"u", 0, 0, 2⟩ 0) = 3 ∧
    extractCalls (scrapeTrace allExnEnv ⟨"u", 0, 0, 2⟩ 0) ≤ 3 := by
  have h := C2_retry_iff_and_bound allExnEnv ⟨"u", 0, 0, 2⟩ rfl
  exact ⟨h.2.2.1 (fun j => ⟨"boom", rfl⟩) (fun a => rfl) (fun a => rfl),
    h.2.1⟩

/-- Claim C3: at every observable instant of any interleaving of
`get_driver` and `return_driver` operations on a pool initialized with at
most `pool_size` drivers, `available + active ≤ pool_size`, and the active
count alone never exceeds `pool_size`. -/
theorem C3_pool_capacity_invariant (pool_size created : Nat) (s : PoolState)
    (hc : created ≤ pool_size) (h : PoolReachable (initPool created) s) :
    s.available + s.active ≤ pool_size ∧ s.active ≤ pool_size := by
  have hsum := poolReachable_sum_le created pool_size hc s h
  omega

/-- Witness for C3: a pool of capacity 2 after a completed `get_driver`
(dequeue, then mark active). -/
theorem C3_witness :
    (⟨1, 0, 1⟩ : PoolState).available + (⟨1, 0, 1⟩ : PoolState).active ≤ 2 ∧
    (⟨1, 0, 1⟩ : PoolState).active ≤ 2 := by
  refine C3_pool_capacity_invariant 2 2 ⟨1, 0, 1⟩ (by decide) ?_
  have h1 : PoolStep (initPool 2) ⟨1, 1, 0⟩ := by
    have h := PoolStep.dequeue (initPool 2) (by decide)
    simpa [initPool] using h
  have h2 : PoolStep ⟨1, 1, 0⟩ ⟨1, 0, 1⟩ := by
    have h := PoolStep.markActive (⟨1, 1, 0⟩ : PoolState) (by decide)
    simpa using h
  exact Relation.ReflTransGen.tail (Relation.ReflTransGen.single h1) h2

/-- In every environment this repository can realize (`SrcFaultsOnly`: the
guarded block raises only through `get_driver`, since `extract_data` catches
every exception internally and always returns a dictionary), the worker
never holds more than one driver at any instant: a failing attempt has
`driver = None` — `get_driver` raises before the assignment of line 197
completes — so the recursive retry of line 241 never runs while a driver is
held. -/
lemma maxHeld_scrapeTrace_le_one (env : TaskEnv) (t : ScrapeTask)
    (attempt : Nat) (hsrc : SrcFaultsOnly env) :
    maxHeld (scrapeTrace env t attempt) ≤ 1 := by
  have hone : maxHeld [WorkerEvent.acq, WorkerEvent.extract,
      WorkerEvent.rel] = 1 := by decide
  have hnil : maxHeld ([] : List WorkerEvent) = 0 := by decide
  generalize hn : t.max_retries - t.retry_count = n
  induction n generalizing t attempt with
  | zero =>
    have hrc : ¬t.retry_count < t.max_retries := by omega
    rw [scrapeTrace]
    by_cases hss : env.sdStart attempt = true
    · simp only [hss, if_true]
      rw [hnil]
      omega
    · simp only [Bool.not_eq_true] at hss
      have hsr : shouldRetry t (env.sdRetry attempt) = false := by
        simp [shouldRetry, hrc]
      cases hext : env.ext attempt with
      | ok d =>
        simp only [hss, Bool.false_eq_true, if_false, hext]
        rw [hone]
      | acquireFail =>
        simp only [hss, Bool.false_eq_true, if_false, hext, hsr]
        simp only [Bool.false_eq_true, dite_false]
        rw [hnil]
        omega
      | extractExn m => exact absurd hext (hsrc attempt m)
  | succ n ih =>
    rw [scrapeTrace]
    by_cases hss : env.sdStart attempt = true
    · simp only [hss, if_true]
      rw [hnil]
      omega
    · simp only [Bool.not_eq_true] at hss
      cases hext : env.ext attempt with
      | ok d =>
        simp only [hss, Bool.false_eq_true, if_false, hext]
        rw [hone]
      | acquireFail =>
        by_cases hsr : shouldRetry t (env.sdRetry attempt) = true
        · have hih := ih (bumpRetry t) (attempt + 1)
            (by rw [shouldRetry_iff] at hsr; simp [bumpRetry]; omega)
          simp only [hss, Bool.false_eq_true, if_false, hext, dif_pos hsr]
          rw [maxHeld_sleep_cons]
          exact hih
        · simp only [Bool.not_eq_true] at hsr
          simp only [hss, Bool.false_eq_true, if_false, hext, hsr]
          simp only [Bool.false_eq_true, dite_false]
          rw [hnil]
          omega
      | extractExn m => exact absurd hext (hsrc attempt m)

/-- Claim C4: for every per-task unit of work of this repository, the worker
holds at most one driver at any instant of the unit, including across
retries of the same task, and every driver it acquires is released back to
the pool before the unit of work ends, on every exit path including
exception paths (the event trace is balanced).  The hypothesis
`SrcFaultsOnly` restricts the attempt oracle to the failures this program
can produce: inside the guarded block only `get_driver` (line 197) can
raise — `extract_data` (facebook_scrapper.py lines 182-293) wraps its whole
body in `try/except` and always returns a dictionary — and it raises before
`driver` is assigned, so the `except` path of line 226 and the recursive
retry of line 241 always run with `driver = None` and no driver held. -/
theorem C4_at_most_one_driver (env : TaskEnv) (t : ScrapeTask)
    (attempt : Nat) (hsrc : SrcFaultsOnly env) :
    maxHeld (scrapeTrace env t attempt) ≤ 1 ∧
    heldAfter (scrapeTrace env t attempt) = 0 :=
  ⟨maxHeld_scrapeTrace_le_one env t attempt hsrc,
    heldAfter_scrapeTrace env t attempt⟩

/-- Witness for C4: a unit of work whose first attempt hits pool exhaustion
(the repository's only realizable in-block exception) and whose retry
succeeds. -/
theorem C4_witness :
    maxHeld (scrapeTrace exhaustOnceEnv ⟨"u", 0, 0, 3⟩ 0) ≤ 1 ∧
    heldAfter (scrapeTrace exhaustOnceEnv ⟨"u", 0, 0, 3⟩ 0) = 0 :=
  C4_at_most_one_driver exhaustOnceEnv ⟨"u", 0, 0, 3⟩ 0
    (fun j m => by by_cases hj : j = 0 <;> simp [exhaustOnceEnv, hj])

/-- Counterexample for C5: on the first retry of a fresh task the retry
decision's input is `retry_count = 0`, so the claim predicts a backoff of
`min(2^0, 10) = 1`; the code increments the count (line 233) before
computing the delay (line 237) and actually sleeps `min(2^1, 10) = 2`. -/
theorem C5_counterexample :
    retrySleeps (scrapeTrace failOnceEnv ⟨"u", 0, 0, 3⟩ 0) = [(1, 2)] ∧
    (2 : Nat) ≠ min (2 ^ (0 : Nat)) 10 := by
  have htr : scrapeTrace failOnceEnv ⟨"u", 0, 0, 3⟩ 0 =
      [WorkerEvent.acq, WorkerEvent.extract, WorkerEvent.retrySleep 1 2,
        WorkerEvent.acq, WorkerEvent.extract, WorkerEvent.rel,
        WorkerEvent.rel] := by
    rw [scrapeTrace]
    simp [failOnceEnv, shouldRetry, retryDelay]
    rw [scrapeTrace]
    simp [failOnceEnv, bumpRetry]
  rw [htr]
  exact ⟨by decide, by decide⟩

/-- Claim C5 (amended): before its j-th retry (counted from zero) a task
created with retry count `r` sleeps exactly `min(2^(r + j + 1), 10)` time
units: base 2 raised to the retry count *after* the increment — the
decision input plus one — capped at 10. -/
theorem C5_backoff_post_increment (env : TaskEnv) (t : ScrapeTask)
    (attempt : Nat) :
    ∃ k, retrySleeps (scrapeTrace env t attempt) =
      (List.range k).map fun j =>
        (t.retry_count + j + 1, min (2 ^ (t.retry_count + j + 1)) 10) := by
  simpa [retryDelay] using retrySleeps_scrapeTrace env t attempt

/-- Counterexample for C6: with 0 completed tasks out of 5 and elapsed time
10, the claim's formula `(e / max(c,1)) * (t - c)` predicts
`estimated_remaining = 50`, but `get_progress` returns `0.0` (the
`completed_tasks == 0` early return of `_estimate_remaining_time`,
line 66-67). -/
theorem C6_counterexample :
    (get_progress ⟨5, 0, 0⟩ 10).estimated_remaining = 0 ∧
    ((10 : ℚ) / ((max 0 1 : Nat) : ℚ)) * ((5 : ℚ) - 0) = 50 ∧
    (get_progress ⟨5, 0, 0⟩ 10).estimated_remaining ≠
      ((10 : ℚ) / ((max 0 1 : Nat) : ℚ)) * ((5 : ℚ) - 0) := by
  refine ⟨rfl, by norm_num, ?_⟩
  norm_num [get_progress, estimateRemainingTime]

/-- Claim C6 (amended): `get_progress` recomputes its derived values from
the current counters on every read (it is a pure function of them):
`success_rate = (c - f) / max(c, 1) * 100`, `elapsed_time = e`, and
`estimated_remaining` is `0` when `c = 0` and `(e / c) * (t - c)` otherwise
(which equals the claim's `(e / max(c,1)) * (t - c)` whenever `c ≥ 1`). -/
theorem C6_snapshot_formulas (t c f : Nat) (e : ℚ) :
    (get_progress ⟨t, c, f⟩ e).success_rate =
      (((c : ℚ) - (f : ℚ)) / ((max c 1 : Nat) : ℚ)) * 100 ∧
    (get_progress ⟨t, c, f⟩ e).elapsed_time = e ∧
    (get_progress ⟨t, c, f⟩ e).estimated_remaining =
      (if c = 0 then 0 else (e / (c : ℚ)) * ((t : ℚ) - (c : ℚ))) := by
  refine ⟨rfl, rfl, ?_⟩
  by_cases hc : c = 0 <;> simp [get_progress, estimateRemainingTime, hc]

/-- Claim C7: a `get_driver` timeout raises the pool-exhausted error and the
worker treats it as a retryable per-task failure, never a process-level
fault: (i) with exhaustion on every attempt, the task still finalizes as a
single failed `ScrapeResult` carrying the pool-exhausted message; (ii) with
exhaustion only on the first attempt, the task retries and succeeds;
(iii) a whole run against a permanently exhausted pool returns one terminal
failed result per url instead of crashing. -/
theorem C7_pool_exhaustion_retryable :
    (∀ env t, (∀ j, env.ext j = AttemptOutcome.acquireFail) →
      (∀ a, env.sdStart a = false) → (∀ a, env.sdRetry a = false) →
      scrapeSingleUrl env t 0 = some (errorResult t poolExhaustedMsg) ∧
      (errorResult t poolExhaustedMsg).success = false ∧
      (errorResult t poolExhaustedMsg).error_message =
        some poolExhaustedMsg) ∧
    (∀ env t d, t.retry_count = 0 → 1 ≤ t.max_retries →
      env.ext 0 = AttemptOutcome.acquireFail →
      (∀ j, 1 ≤ j → env.ext j = AttemptOutcome.ok d) →
      (∀ a, env.sdStart a = false) → (∀ a, env.sdRetry a = false) →
      scrapeSingleUrl env t 0 = some (okResult (bumpRetry t) d)) ∧
    (∀ env mr urls order, order.Perm (List.range urls.length) →
      (∀ i j, env.ext i j = AttemptOutcome.acquireFail) →
      (∀ i a, env.sdStart i a = false) → (∀ i a, env.sdRetry i a = false) →
      (∀ j, env.sdMain j = false) →
      (scrape_urls env mr urls order).length = urls.length ∧
      ∀ r ∈ scrape_urls env mr urls order, r.success = false ∧
        r.error_message = some poolExhaustedMsg) := by
  refine ⟨?_, ?_, ?_⟩
  · intro env t hf hs hr
    have h := scrapeSingleUrl_all_fail env t 0
      (fun j => by rw [hf j]; rfl) hs hr
    rw [hf (0 + (t.max_retries - t.retry_count))] at h
    simp only [failMsg] at h
    exact ⟨h, rfl, rfl⟩
  · intro env t d h0 hk h1 h2 hs hr
    have hsr : shouldRetry t (env.sdRetry 0) = true := by
      rw [shouldRetry_iff]
      exact ⟨by omega, hr 0⟩
    rw [scrapeSingleUrl]
    simp only [hs 0, Bool.false_eq_true, if_false, h1, dif_pos hsr]
    rw [scrapeSingleUrl]
    simp [hs 1, h2 1 (by omega)]
  · intro env mr urls order hperm hf hs hr hm
    obtain ⟨hurl, hid, hfut⟩ :=
      scrape_urls_no_sd_spec env mr urls order hperm hs hm
    constructor
    · have h := congrArg List.length hurl
      simpa using h
    · intro r hrmem
      have h := hfut r hrmem
      rw [futureOf] at h
      cases hmk : (mkTasks urls mr)[r.task_id]? with
      | none => rw [hmk] at h; simp at h
      | some t' =>
        rw [hmk] at h
        have h' : scrapeSingleUrl (taskEnv env r.task_id) t' 0 = some r := h
        have h2 := scrapeSingleUrl_all_fail (taskEnv env r.task_id) t' 0
          (fun j => by
            show (env.ext r.task_id j).isFailure = true
            rw [hf r.task_id j]
            rfl)
          (fun a => hs r.task_id a) (fun a => hr r.task_id a)
        have hM : failMsg ((taskEnv env r.task_id).ext
            (0 + (t'.max_retries - t'.retry_count))) = poolExhaustedMsg := by
          show failMsg (env.ext r.task_id
            (0 + (t'.max_retries - t'.retry_count))) = poolExhaustedMsg
          rw [hf]
          rfl
        rw [hM] at h2
        rw [h2] at h'
        have hre := Option.some.inj h'
        rw [← hre]
        exact ⟨rfl, rfl⟩

/-- Witness for C7: concrete exhausted-pool runs of a single task (always
exhausted, and exhausted only on the first attempt) and a one-url run. -/
theorem C7_witness :
    scrapeSingleUrl allExhaustEnv ⟨"u", 0, 0, 3⟩ 0 =
      some (errorResult ⟨"u", 0, 0, 3⟩ poolExhaustedMsg) ∧
    scrapeSingleUrl exhaustOnceEnv ⟨"u", 0, 0, 3⟩ 0 =
      some (okResult (bumpRetry ⟨"u", 0, 0, 3⟩) {}) ∧
    (scrape_urls exhaustRunEnv 3 ["a"] [0]).length = ["a"].length := by
  refine ⟨?_, ?_, ?_⟩
  · exact (C7_pool_exhaustion_retryable.1 allExhaustEnv ⟨"u", 0, 0, 3⟩
      (fun j => rfl) (fun a => rfl) (fun a => rfl)).1
  · refine C7_pool_exhaustion_retryable.2.1 exhaustOnceEnv ⟨"u", 0, 0, 3⟩
      {} rfl (by decide) rfl ?_ (fun a => rfl) (fun a => rfl)
    intro j hj
    have hj0 : ¬j = 0 := by omega
    simp [exhaustOnceEnv, hj0]
  · exact (C7_pool_exhaustion_retryable.2.2 exhaustRunEnv 3 ["a"] [0]
      (by decide) (fun i j => rfl) (fun i a => rfl) (fun i a => rfl)
      (fun j => rfl)).1

/-- Claim C8: when the shutdown flag becomes set at main-loop observation
`s`: the run returns exactly the (sorted) values of the futures processed
before the signal — a count never exceeding the total; the returned list is
sorted by task id; a worker observing the flag at a retry decision performs
no further retry (no backoff sleep, at most one extraction from that
attempt on); and a worker observing the flag before starting its task does
nothing (no events, no result). -/
theorem C8_cooperative_shutdown (env : RunEnv) (mr : Nat)
    (urls : List String) (order : List Nat) (s : Nat)
    (hperm : order.Perm (List.range urls.length))
    (hsd : ∀ j, env.sdMain j = true ↔ s ≤ j) :
    scrape_urls env mr urls order =
      sortResults ((order.take s).filterMap (futureOf env mr urls)) ∧
    (scrape_urls env mr urls order).length ≤ urls.length ∧
    (scrape_urls env mr urls order).Sorted
      (fun a b => a.task_id ≤ b.task_id) ∧
    (∀ i t a, env.sdRetry i a = true →
      retrySleeps (scrapeTrace (taskEnv env i) t a) = [] ∧
      extractCalls (scrapeTrace (taskEnv env i) t a) ≤ 1) ∧
    (∀ i t, env.sdStart i 0 = true →
      scrapeSingleUrl (taskEnv env i) t 0 = none ∧
      scrapeTrace (taskEnv env i) t 0 = []) := by
  have hcut := scrape_urls_cutoff env mr urls order s hsd
  refine ⟨hcut, ?_, scrape_urls_sorted_by_id env mr urls order, ?_, ?_⟩
  · rw [hcut]
    have h1 : (sortResults ((order.take s).filterMap
        (futureOf env mr urls))).length =
        ((order.take s).filterMap (futureOf env mr urls)).length :=
      (sortResults_perm _).length_eq
    have h2 := List.length_filterMap_le (futureOf env mr urls)
      (order.take s)
    have h3 := List.length_take s order
    have h4 := hperm.length_eq
    rw [List.length_range] at h4
    omega
  · intro i t a hr
    exact scrapeTrace_sdRetry (taskEnv env i) t a hr
  · intro i t hstrue
    exact scrapeSingleUrl_shutdown (taskEnv env i) t 0 hstrue

/-- Witness for C8: a two-url run whose shutdown flag is observed set from
the collection loop's second observation on (signal after one processed
future). -/
theorem C8_witness :
    scrape_urls shutdownAfterOneEnv 3 ["a", "b"] [0, 1] =
      sortResults ((([0, 1] : List Nat).take 1).filterMap
        (futureOf shutdownAfterOneEnv 3 ["a", "b"])) ∧
    (scrape_urls shutdownAfterOneEnv 3 ["a", "b"] [0, 1]).length ≤ 2 := by
  have h := C8_cooperative_shutdown shutdownAfterOneEnv 3 ["a", "b"]
    [0, 1] 1 (by decide) (fun j => by simp [shutdownAfterOneEnv])
  exact ⟨h.1, by simpa using h.2.1⟩

/-- Counterexample for C9: in a completed one-url run the progress callback
is invoked exactly once — after the task's completion, with that task's
result — and never again with `Result = none`: the claim's additional
end-of-run invocation with `Result = none` does not happen (the `finally`
block of lines 161-164 only logs the final progress). -/
theorem C9_counterexample :
    (callbackArgsOfRun okRunEnv 3 ["u"] [0]).countP
      (fun o => o.isNone) ≠ 1 := by
  have hfut : futureOf okRunEnv 3 ["u"] 0 =
      some (okResult ⟨"u", 0, 0, 3⟩ {}) := by
    rw [futureOf, mkTasks_getElem?]
    show (scrapeSingleUrl (taskEnv okRunEnv 0) ⟨"u", 0, 0, 3⟩ 0) =
      some (okResult ⟨"u", 0, 0, 3⟩ {})
    rw [scrapeSingleUrl]
    simp [taskEnv, okRunEnv]
  have hargs : callbackArgsOfRun okRunEnv 3 ["u"] [0] =
      [some (okResult ⟨"u", 0, 0, 3⟩ {})] := by
    rw [callbackArgsOfRun, if_neg (by decide)]
    rw [callbackCalls, if_neg (by decide), callbackCalls, hfut]
  rw [hargs]
  decide

/-- Claim C9 (amended): with a progress callback configured, a shutdown-free
run invokes the callback once per processed task completion, each time with
that task's `ScrapeResult`; no invocation receives `Result = none`, and in
particular there is no extra end-of-run invocation with `Result = none`. -/
theorem C9_callback_per_completion (env : RunEnv) (mr : Nat)
    (urls : List String) (order : List Nat)
    (hperm : order.Perm (List.range urls.length))
    (hsS : ∀ i a, env.sdStart i a = false)
    (hsM : ∀ j, env.sdMain j = false) :
    callbackArgsOfRun env mr urls order =
      order.map (futureOf env mr urls) ∧
    (∀ i ∈ order, ∃ r, futureOf env mr urls i = some r ∧ r.task_id = i) ∧
    (callbackArgsOfRun env mr urls order).countP
      (fun o => o.isNone) = 0 := by
  have hmem : ∀ i ∈ order, i < urls.length := by
    intro i hi
    have h := hperm.mem_iff.mp hi
    simpa [List.mem_range] using h
  have hsome : ∀ i ∈ order, ∃ r, futureOf env mr urls i = some r ∧
      r.task_id = i := by
    intro i hi
    obtain ⟨r, hr, hid, _⟩ :=
      futureOf_some env mr urls i (hmem i hi) (hsS i)
    exact ⟨r, hr, hid⟩
  by_cases hemp : urls.isEmpty
  · have h0 : urls = [] := by simpa using hemp
    subst h0
    have ho : order = [] := by
      have h := hperm
      have h2 : List.range ([] : List String).length = [] := rfl
      rw [h2] at h
      exact h.eq_nil
    subst ho
    refine ⟨by simp [callbackArgsOfRun], by simp, by simp [callbackArgsOfRun]⟩
  · have hargs : callbackArgsOfRun env mr urls order =
        order.map (futureOf env mr urls) := by
      rw [callbackArgsOfRun, if_neg (by simp [hemp])]
      exact callbackCalls_no_sd _ _ hsM order 0
    refine ⟨hargs, hsome, ?_⟩
    rw [hargs, List.countP_eq_zero]
    intro o ho
    obtain ⟨i, hi, hoi⟩ := List.mem_map.mp ho
    obtain ⟨r, hr, _⟩ := hsome i hi
    rw [← hoi, hr]
    simp

/-- Witness for C9 (amended): a concrete two-url run with reversed
completion order. -/
theorem C9_witness :
    callbackArgsOfRun okRunEnv 3 ["a", "b"] [1, 0] =
      ([1, 0] : List Nat).map (futureOf okRunEnv 3 ["a", "b"]) ∧
    (callbackArgsOfRun okRunEnv 3 ["a", "b"] [1, 0]).countP
      (fun o => o.isNone) = 0 := by
  have h := C9_callback_per_completion okRunEnv 3 ["a", "b"] [1, 0]
    (by decide) (fun i a => rfl) (fun j => rfl)
  exact ⟨h.1, h.2.2⟩

/-- Claim C10: a completed (non-exception) extraction yields a result whose
success flag is true iff the payload dictionary has no non-None
`error_message` entry and whose `error_message` field equals that entry;
every exception path yields `success = false` with `error_message` equal to
the string form of the raised exception — in this repository that exception
can only be the pool-exhaustion one (`extract_data` catches everything
internally, `SrcFaultsOnly`), whose string form is fixed and non-empty. -/
theorem C10_result_error_semantics :
    (∀ env t attempt d, env.sdStart attempt = false →
      env.ext attempt = AttemptOutcome.ok d →
      scrapeSingleUrl env t attempt = some (okResult t d) ∧
      ((okResult t d).success = true ↔ d.error_message = none) ∧
      (okResult t d).error_message = d.error_message) ∧
    (∀ env t attempt, (∀ j, (env.ext j).isFailure = true) →
      (∀ a, env.sdStart a = false) → (∀ a, env.sdRetry a = false) →
      ∃ m, scrapeSingleUrl env t attempt = some (errorResult t m) ∧
        (errorResult t m).success = false ∧
        (errorResult t m).error_message = some m) ∧
    (∀ env t attempt, SrcFaultsOnly env →
      (∀ j, (env.ext j).isFailure = true) →
      (∀ a, env.sdStart a = false) → (∀ a, env.sdRetry a = false) →
      scrapeSingleUrl env t attempt =
        some (errorResult t poolExhaustedMsg) ∧
      poolExhaustedMsg ≠ "") := by
  refine ⟨?_, ?_, ?_⟩
  · intro env t attempt d h1 h2
    refine ⟨?_, ?_, rfl⟩
    · rw [scrapeSingleUrl]
      simp [h1, h2]
    · simp [okResult, Option.isNone_iff_eq_none]
  · intro env t attempt hf hs hr
    exact ⟨_, scrapeSingleUrl_all_fail env t attempt hf hs hr, rfl, rfl⟩
  · intro env t attempt hsrc hf hs hr
    have h := scrapeSingleUrl_all_fail env t attempt hf hs hr
    have hacq : env.ext (attempt + (t.max_retries - t.retry_count)) =
        AttemptOutcome.acquireFail := by
      have hfail := hf (attempt + (t.max_retries - t.retry_count))
      cases hext : env.ext (attempt + (t.max_retries - t.retry_count)) with
      | acquireFail => rfl
      | extractExn m => exact absurd hext (hsrc _ m)
      | ok d =>
        rw [hext] at hfail
        simp [AttemptOutcome.isFailure] at hfail
    rw [hacq] at h
    refine ⟨by simpa [failMsg] using h, by decide⟩

/-- Witness for C10: a successful empty-payload extraction and an
always-exhausted pool, at concrete tasks. -/
theorem C10_witness :
    scrapeSingleUrl okTaskEnv ⟨"u", 0, 0, 3⟩ 0 =
      some (okResult ⟨"u", 0, 0, 3⟩ {}) ∧
    scrapeSingleUrl allExhaustEnv ⟨"u", 0, 0, 3⟩ 0 =
      some (errorResult ⟨"u", 0, 0, 3⟩ poolExhaustedMsg) := by
  constructor
  · exact (C10_result_error_semantics.1 okTaskEnv ⟨"u", 0, 0, 3⟩ 0 {}
      rfl rfl).1
  · exact (C10_result_error_semantics.2.2 allExhaustEnv ⟨"u", 0, 0, 3⟩ 0
      (fun j m h => nomatch h) (fun j => rfl) (fun a => rfl)
      (fun a => rfl)).1

end FbApp
